import Mathlib

/-!
Shallow embedding of lib/throttle.js from node-whyyoulittle.

The throttle is built on a vasync work queue.  `wait` is the admission
path and `afterRequest` the completion path.  The vasync queue is
modelled by the `npending` counter (tasks currently running) together
with the `queued` FIFO list (tasks not yet dispatched) and the
synchronous dispatch loop `dispatchN`, matching the vasync
push / dispatchNext / dispatch semantics on a single-threaded event
loop: push appends to the queue and then drains it into running slots
while fewer than `concurrency` tasks are pending; the per-task
completion callback decrements `npending` and drains again.

DTrace probes are modelled as an event log guarded by `hasProbes`
(probes are created only when a dtrace provider is supplied at
construction).  The restify `next` continuation is modelled by the
`nextCalls` list: a rejected request gets `next(err)` with a
ThrottledError VError, an admitted request gets a plain `next()` when
its task is dispatched.  The console.log warning printed by
`afterRequest` for an unknown request id is recorded in `warnings`.
The `taskCbFromReqId` object is an association list with JavaScript
object semantics (one binding per key, assignment overwrites).
-/

namespace Wyl

/-- JavaScript values as far as the assert-plus checks in the Throttle
constructor observe them: `assert.number` accepts any value of number
type that is not NaN, which includes finite rationals and the two
infinities. -/
inductive JsVal where
  | undefined : JsVal
  | nan : JsVal
  | infinity : JsVal
  | negInfinity : JsVal
  | num : ℚ → JsVal
  | str : String → JsVal
deriving DecidableEq, Repr

/-- The check performed by `assert.number(v)`: v has number type and is
not NaN. -/
def assertNumberOk : JsVal → Bool
  | JsVal.num _ => true
  | JsVal.infinity => true
  | JsVal.negInfinity => true
  | _ => false

/-- The check performed by `assert.ok(v > 0)` on a JavaScript value. -/
def jsGtZero : JsVal → Bool
  | JsVal.num q => decide (0 < q)
  | JsVal.infinity => true
  | _ => false

/-- The assertions the vasync WorkQueue constructor applies to the
concurrency argument when the Throttle constructor builds
`requestQueue`: typeof number, `Math.floor(c) == c` and `c > 0`.  A
finite rational equals its floor exactly when its denominator is one;
Math.floor maps each infinity to itself, so positive infinity passes
and negative infinity fails only the positivity check; NaN has number
type but `NaN == NaN` is false, so it fails the floor equality. -/
def vasyncConcurrencyOk : JsVal → Bool
  | JsVal.num q => decide (q.den = 1) && decide (0 < q)
  | JsVal.infinity => true
  | _ => false

/-- The parts of a restify request the throttle reads: `req.getId()`,
`req.url` and `req.method`. -/
structure Req where
  reqId : String
  url : String
  method : String
deriving DecidableEq, Repr

/-- A JavaScript error as produced on the rejection path: the VError
name together with the data interpolated into its message (inflight of
concurrency, queued of queueTolerance). -/
structure JsError where
  name : String
  inflight : Nat
  concurrency : Nat
  qlen : Nat
  queueTolerance : Nat
deriving DecidableEq, Repr

/-- The options object accepted by `createThrottle`.  The README and
the example server document a `createThrottledError` option; the
constructor in lib/throttle.js reads only `concurrency`,
`queueTolerance` and `dtp`. -/
structure Options where
  concurrency : JsVal
  queueTolerance : JsVal
  dtp : Bool
  createThrottledError : Option (Req → JsError)

/-- Whether the Throttle constructor completes without an assertion
failure: both limits must pass `assert.number` and
`assert.ok(limit > 0)` (source lines 282 to 285), and the concurrency
value must additionally satisfy the vasync WorkQueue assertions when
`vasync.queue(..., this.concurrency)` runs (source lines 309 to 311).
The queueTolerance value never reaches the vasync queue. -/
def throttleConstructs (o : Options) : Bool :=
  assertNumberOk o.concurrency && jsGtZero o.concurrency
    && assertNumberOk o.queueTolerance && jsGtZero o.queueTolerance
    && vasyncConcurrencyOk o.concurrency

/-- The predicate named by the spec sentence for construction: the
value is a positive integer. -/
def isPositiveIntegerJs (v : JsVal) : Bool :=
  match v with
  | JsVal.num q => decide (0 < q) && decide (q.den = 1)
  | _ => false

/-- Modelled from the spec words for the amended construction claim:
a JavaScript number (not NaN) that is strictly greater than zero,
which is what the pair of assert-plus checks accepts; this is all the
constructor demands of queueTolerance. -/
def IsPositiveJsNumber (v : JsVal) : Prop :=
  v = JsVal.infinity ∨ ∃ q : ℚ, v = JsVal.num q ∧ 0 < q

/-- Modelled from the spec words for the amended construction claim:
a JavaScript number strictly greater than zero and equal to its floor,
that is a positive integer or positive infinity; this is what the
constructor demands of concurrency once the vasync WorkQueue
assertions run. -/
def IsPositiveIntegralJsNumber (v : JsVal) : Prop :=
  v = JsVal.infinity ∨ ∃ q : ℚ, v = JsVal.num q ∧ 0 < q ∧ q.den = 1

/-- The four dtrace probes created by the constructor, with the
arguments each `fire` callback returns. -/
inductive Event where
  | request_throttled : Nat → Nat → String → String → Event
  | queue_enter : String → Event
  | queue_leave : String → Event
  | request_handled : Nat → Nat → String → String → Event
deriving DecidableEq, Repr

/-- One invocation of the restify `next` continuation: either with the
ThrottledError VError (rejection) or with no argument (the dispatched
task hands control to the rest of the handler chain). -/
inductive NextCall where
  | throttled : String → JsError → NextCall
  | proceed : String → NextCall
deriving DecidableEq, Repr

/-- The mutable state of one Throttle instance plus the externally
observable outputs it produces (probe events, next invocations,
console warnings). -/
structure State where
  concurrency : Nat
  queueTolerance : Nat
  hasProbes : Bool
  npending : Nat
  queued : List Req
  taskCbFromReqId : List (String × Nat)
  nextUid : Nat
  events : List Event
  nextCalls : List NextCall
  warnings : List String
deriving DecidableEq, Repr

/-- Property read on a JavaScript object used as a map. -/
def mapLookup : List (String × Nat) → String → Option Nat
  | [], _ => none
  | (k, v) :: rest, key => if k = key then some v else mapLookup rest key

/-- Property assignment on a JavaScript object used as a map: a second
assignment to the same key overwrites the first binding. -/
def mapInsert : List (String × Nat) → String → Nat → List (String × Nat)
  | [], key, v => [(key, v)]
  | (k, w) :: rest, key, v =>
    if k = key then (key, v) :: rest else (k, w) :: mapInsert rest key v

/-- The delete operator on a JavaScript object used as a map. -/
def mapDelete : List (String × Nat) → String → List (String × Nat)
  | [], _ => []
  | (k, w) :: rest, key => if k = key then rest else (k, w) :: mapDelete rest key

/-- Firing a dtrace probe: probes exist only when a dtrace provider was
supplied, otherwise the guard `if (self.throttle_probes)` skips the
call. -/
def fire (s : State) (e : Event) : State :=
  if s.hasProbes then { s with events := s.events ++ [e] } else s

/-- The body of the `doTask` closure pushed onto the request queue
(source lines 347 to 356): when the queue dispatches it, it fires
queue_leave, stores the vasync completion callback under the
caller-supplied request id, and calls `next()`.  Distinct dispatched
tasks receive distinct callback closures, modelled by the fresh
`nextUid` tag. -/
def doTask (s : State) (r : Req) : State :=
  let s1 := fire s (Event.queue_leave r.reqId)
  { s1 with
    taskCbFromReqId := mapInsert s1.taskCbFromReqId r.reqId s1.nextUid,
    nextUid := s1.nextUid + 1,
    nextCalls := s1.nextCalls ++ [NextCall.proceed r.reqId] }

/-- The vasync dispatch loop: while a concurrency slot is free and a
task is queued, shift the head of the queue into a running slot and run
its body.  The fuel argument bounds the iterations; the initial queue
length always suffices since each iteration consumes one queued task
and the body queues nothing. -/
def dispatchN : Nat → State → State
  | 0, s => s
  | n + 1, s =>
    if s.npending < s.concurrency then
      match s.queued with
      | [] => s
      | r :: rest => dispatchN n (doTask { s with queued := rest, npending := s.npending + 1 } r)
    else s

/-- Drain the queue as far as free slots allow. -/
def dispatchAll (s : State) : State := dispatchN s.queued.length s

/-- The VError built on the rejection path of `wait` (source lines 333
to 335): name ThrottledError, message carrying inflight of concurrency
and queued of queueTolerance. -/
def mkThrottledError (inflight conc qlen tol : Nat) : JsError :=
  { name := "ThrottledError", inflight := inflight, concurrency := conc,
    qlen := qlen, queueTolerance := tol }

/-- `Throttle.prototype.wait` (source lines 316 to 358): read the queue
length and the pending count; if the queue length has reached
queueTolerance, fire request_throttled and call next with a
ThrottledError; otherwise fire queue_enter and push `doTask` onto the
request queue, which dispatches immediately while slots are free. -/
def wait (s : State) (r : Req) : State :=
  let qlen := s.queued.length
  let inflight := s.npending
  if s.queueTolerance ≤ qlen then
    let s1 := fire s (Event.request_throttled inflight qlen r.url r.method)
    { s1 with nextCalls := s1.nextCalls
        ++ [NextCall.throttled r.reqId
              (mkThrottledError inflight s.concurrency qlen s.queueTolerance)] }
  else
    let s1 := fire s (Event.queue_enter r.reqId)
    dispatchAll { s1 with queued := s1.queued ++ [r] }

/-- Invoking a stored vasync completion callback: it decrements the
pending count and dispatches the next queued task if any. -/
def taskCb (s : State) : State := dispatchAll { s with npending := s.npending - 1 }

/-- The console.log warning and early return taken by `afterRequest`
when no callback is stored for the request id. -/
def warnNoTaskCb (s : State) (r : Req) : State :=
  { s with warnings := s.warnings ++ ["no taskCb for reqId " ++ r.reqId] }

/-- `Throttle.prototype.afterRequest` (source lines 360 to 406): look
up the stored callback for `req.getId()`; if absent, log a warning and
return; otherwise delete the map entry, fire request_handled with the
current pending count and queue length, then invoke the callback. -/
def afterRequest (s : State) (r : Req) : State :=
  match mapLookup s.taskCbFromReqId r.reqId with
  | none => warnNoTaskCb s r
  | some _ =>
    let s1 := { s with taskCbFromReqId := mapDelete s.taskCbFromReqId r.reqId }
    let qlen := s1.queued.length
    let s2 := fire s1 (Event.request_handled s1.npending qlen r.url r.method)
    taskCb s2

/-- One external call into the throttle. -/
inductive Op where
  | wait : Req → Op
  | afterRequest : Req → Op

/-- Apply one external call. -/
def step (s : State) : Op → State
  | Op.wait r => wait s r
  | Op.afterRequest r => afterRequest s r

/-- Apply a sequence of external calls. -/
def run (s : State) (ops : List Op) : State := ops.foldl step s

/-- The state of a freshly constructed throttle with integer limits:
empty vasync queue, nothing pending, empty callback map. -/
def initState (conc tol : Nat) (probes : Bool) : State :=
  { concurrency := conc, queueTolerance := tol, hasProbes := probes, npending := 0,
    queued := [], taskCbFromReqId := [], nextUid := 0, events := [], nextCalls := [],
    warnings := [] }

/-- Natural number denoted by a JsVal holding a positive integer, used
to build the operational state for integer limits. -/
def jsToNat : JsVal → Nat
  | JsVal.num q => q.num.toNat
  | _ => 0

/-- The field assignments performed by the Throttle constructor
(source lines 288 to 313) for integer limits: record the two limits and
whether a dtrace provider was supplied, create the empty vasync queue
and the empty taskCbFromReqId map.  The `createThrottledError` option
is not read anywhere in the constructor or in `wait`. -/
def mkThrottleState (o : Options) : State :=
  initState (jsToNat o.concurrency) (jsToNat o.queueTolerance) o.dtp

/-- Number of rejections among the recorded next invocations. -/
def countThrottled : List NextCall → Nat
  | [] => 0
  | NextCall.throttled _ _ :: rest => countThrottled rest + 1
  | NextCall.proceed _ :: rest => countThrottled rest

/-- The state after k arrivals (wait calls) on a fresh throttle with no
completions, the i-th arrival carrying request data f i. -/
def arrivals (conc tol : Nat) (f : Nat → Req) (k : Nat) : State :=
  run (initState conc tol false) ((List.range k).map fun i => Op.wait (f i))

/-- The probe-independent part of the state: everything except the
event log and the probe flag. -/
structure CoreView where
  concurrency : Nat
  queueTolerance : Nat
  npending : Nat
  queued : List Req
  taskCbFromReqId : List (String × Nat)
  nextUid : Nat
  nextCalls : List NextCall
  warnings : List String
deriving DecidableEq, Repr

/-- Project the probe-independent part of a state. -/
def State.core (s : State) : CoreView :=
  { concurrency := s.concurrency, queueTolerance := s.queueTolerance,
    npending := s.npending, queued := s.queued,
    taskCbFromReqId := s.taskCbFromReqId, nextUid := s.nextUid,
    nextCalls := s.nextCalls, warnings := s.warnings }

/-- A concrete rejection-error factory like the create503 one in the
example server: it returns a restify ServiceUnavailableError. -/
def serviceUnavailableFactory : Req → JsError :=
  fun _ => { name := "ServiceUnavailableError", inflight := 0, concurrency := 0,
             qlen := 0, queueTolerance := 0 }

/-- Firing a probe whose fire call may throw: the source wraps no fire
call in a try block, so a throw propagates to the caller of the
enclosing method with the state as mutated so far. -/
def fireE (throws : Event → Bool) (s : State) (e : Event) : Except State State :=
  if s.hasProbes then
    if throws e then Except.error s
    else Except.ok { s with events := s.events ++ [e] }
  else Except.ok s

/-- The `doTask` body under a possibly throwing probe fire. -/
def doTaskE (throws : Event → Bool) (s : State) (r : Req) : Except State State :=
  match fireE throws s (Event.queue_leave r.reqId) with
  | Except.error sE => Except.error sE
  | Except.ok s1 => Except.ok { s1 with
      taskCbFromReqId := mapInsert s1.taskCbFromReqId r.reqId s1.nextUid,
      nextUid := s1.nextUid + 1,
      nextCalls := s1.nextCalls ++ [NextCall.proceed r.reqId] }

/-- The vasync dispatch loop under a possibly throwing probe fire: a
throw inside a task body propagates out of the loop, leaving the slot
already taken. -/
def dispatchNE (throws : Event → Bool) : Nat → State → Except State State
  | 0, s => Except.ok s
  | n + 1, s =>
    if s.npending < s.concurrency then
      match s.queued with
      | [] => Except.ok s
      | r :: rest =>
        match doTaskE throws { s with queued := rest, npending := s.npending + 1 } r with
        | Except.error sE => Except.error sE
        | Except.ok s1 => dispatchNE throws n s1
    else Except.ok s

/-- Drain the queue under a possibly throwing probe fire. -/
def dispatchAllE (throws : Event → Bool) (s : State) : Except State State :=
  dispatchNE throws s.queued.length s

/-- `wait` under a possibly throwing probe fire. -/
def waitE (throws : Event → Bool) (s : State) (r : Req) : Except State State :=
  let qlen := s.queued.length
  let inflight := s.npending
  if s.queueTolerance ≤ qlen then
    match fireE throws s (Event.request_throttled inflight qlen r.url r.method) with
    | Except.error sE => Except.error sE
    | Except.ok s1 => Except.ok { s1 with nextCalls := s1.nextCalls
        ++ [NextCall.throttled r.reqId
              (mkThrottledError inflight s.concurrency qlen s.queueTolerance)] }
  else
    match fireE throws s (Event.queue_enter r.reqId) with
    | Except.error sE => Except.error sE
    | Except.ok s1 => dispatchAllE throws { s1 with queued := s1.queued ++ [r] }

/-- A stored completion callback under a possibly throwing probe
fire. -/
def taskCbE (throws : Event → Bool) (s : State) : Except State State :=
  dispatchAllE throws { s with npending := s.npending - 1 }

/-- `afterRequest` under a possibly throwing probe fire: the map entry
is deleted before the request_handled fire, so a throw there escapes
with the entry gone and the slot still held. -/
def afterRequestE (throws : Event → Bool) (s : State) (r : Req) : Except State State :=
  match mapLookup s.taskCbFromReqId r.reqId with
  | none => Except.ok (warnNoTaskCb s r)
  | some _ =>
    let s1 := { s with taskCbFromReqId := mapDelete s.taskCbFromReqId r.reqId }
    let qlen := s1.queued.length
    match fireE throws s1 (Event.request_handled s1.npending qlen r.url r.method) with
    | Except.error sE => Except.error sE
    | Except.ok s2 => taskCbE throws s2

/-- Concrete requests used in closed witnesses and counterexamples. -/
def reqA : Req := { reqId := "a", url := "u", method := "m" }

/-- A second concrete request. -/
def reqB : Req := { reqId := "b", url := "u", method := "m" }

/-- A third concrete request. -/
def reqC : Req := { reqId := "c", url := "u", method := "m" }

/-- A request distinct from reqA but carrying the same caller-supplied
request id, as happens when client-supplied correlation ids are
reused. -/
def reqA2 : Req := { reqId := "a", url := "u2", method := "m2" }

/-- Canonical pairwise-distinct requests for arrival sequences. -/
def reqOf (i : Nat) : Req := { reqId := Nat.repr i, url := "u", method := "m" }

/-- The positive non-integer rational five halves, in normalized
form. -/
def fiveHalves : ℚ := ⟨5, 2, by decide, by decide⟩

/-- A concrete throttle state with one running task and a full queue,
probes enabled, used in closed witnesses. -/
def fullSt : State :=
  { concurrency := 1, queueTolerance := 1, hasProbes := true, npending := 1,
    queued := [reqB], taskCbFromReqId := [("a", 0)], nextUid := 1, events := [],
    nextCalls := [], warnings := [] }

/-- A concrete throttle state with one running task, an empty queue and
probes enabled, used in closed witnesses. -/
def oneRunningSt : State :=
  { concurrency := 2, queueTolerance := 2, hasProbes := true, npending := 1,
    queued := [], taskCbFromReqId := [("a", 0)], nextUid := 1, events := [],
    nextCalls := [], warnings := [] }


@[simp] theorem fire_concurrency (s : State) (e : Event) :
    (fire s e).concurrency = s.concurrency := by
  unfold fire; split <;> rfl

@[simp] theorem fire_queueTolerance (s : State) (e : Event) :
    (fire s e).queueTolerance = s.queueTolerance := by
  unfold fire; split <;> rfl

@[simp] theorem fire_hasProbes (s : State) (e : Event) :
    (fire s e).hasProbes = s.hasProbes := by
  unfold fire; split <;> rfl

@[simp] theorem fire_npending (s : State) (e : Event) :
    (fire s e).npending = s.npending := by
  unfold fire; split <;> rfl

@[simp] theorem fire_queued (s : State) (e : Event) :
    (fire s e).queued = s.queued := by
  unfold fire; split <;> rfl

@[simp] theorem fire_taskCbFromReqId (s : State) (e : Event) :
    (fire s e).taskCbFromReqId = s.taskCbFromReqId := by
  unfold fire; split <;> rfl

@[simp] theorem fire_nextUid (s : State) (e : Event) :
    (fire s e).nextUid = s.nextUid := by
  unfold fire; split <;> rfl

@[simp] theorem fire_nextCalls (s : State) (e : Event) :
    (fire s e).nextCalls = s.nextCalls := by
  unfold fire; split <;> rfl

@[simp] theorem fire_warnings (s : State) (e : Event) :
    (fire s e).warnings = s.warnings := by
  unfold fire; split <;> rfl

@[simp] theorem fire_core (s : State) (e : Event) : (fire s e).core = s.core := by
  unfold fire; split <;> rfl

@[simp] theorem doTask_concurrency (s : State) (r : Req) :
    (doTask s r).concurrency = s.concurrency := by
  unfold doTask; simp

@[simp] theorem doTask_queueTolerance (s : State) (r : Req) :
    (doTask s r).queueTolerance = s.queueTolerance := by
  unfold doTask; simp

@[simp] theorem doTask_hasProbes (s : State) (r : Req) :
    (doTask s r).hasProbes = s.hasProbes := by
  unfold doTask; simp

@[simp] theorem doTask_npending (s : State) (r : Req) :
    (doTask s r).npending = s.npending := by
  unfold doTask; simp

@[simp] theorem doTask_queued (s : State) (r : Req) :
    (doTask s r).queued = s.queued := by
  unfold doTask; simp

@[simp] theorem doTask_nextCalls (s : State) (r : Req) :
    (doTask s r).nextCalls = s.nextCalls ++ [NextCall.proceed r.reqId] := by
  unfold doTask; simp

theorem countThrottled_append (a b : List NextCall) :
    countThrottled (a ++ b) = countThrottled a + countThrottled b := by
  induction a with
  | nil => simp [countThrottled]
  | cons x rest ih =>
    cases x with
    | throttled i e =>
      simp [countThrottled, ih]
      omega
    | proceed i => simp [countThrottled, ih]

@[simp] theorem doTask_countThrottled (s : State) (r : Req) :
    countThrottled (doTask s r).nextCalls = countThrottled s.nextCalls := by
  rw [doTask_nextCalls, countThrottled_append]; rfl
theorem dispatchN_succ_full (n : Nat) (s : State) (h : ¬ s.npending < s.concurrency) :
    dispatchN (n + 1) s = s := by
  unfold dispatchN
  simp [h]

theorem dispatchN_succ_nil (n : Nat) (s : State) (hq : s.queued = []) :
    dispatchN (n + 1) s = s := by
  unfold dispatchN
  by_cases h : s.npending < s.concurrency
  · simp [h, hq]
  · simp [h]

theorem dispatchN_succ_cons (n : Nat) (s : State) (r : Req) (rest : List Req)
    (hq : s.queued = r :: rest) (h : s.npending < s.concurrency) :
    dispatchN (n + 1) s
      = dispatchN n (doTask { s with queued := rest, npending := s.npending + 1 } r) := by
  conv_lhs => unfold dispatchN
  simp [h, hq]

theorem dispatchN_of_full (n : Nat) (s : State) (h : s.concurrency ≤ s.npending) :
    dispatchN n s = s := by
  cases n with
  | zero => rfl
  | succ n => exact dispatchN_succ_full n s (Nat.not_lt.mpr h)

theorem dispatchN_of_empty (n : Nat) (s : State) (hq : s.queued = []) :
    dispatchN n s = s := by
  cases n with
  | zero => rfl
  | succ n => exact dispatchN_succ_nil n s hq

theorem dispatchN_concurrency (n : Nat) (s : State) :
    (dispatchN n s).concurrency = s.concurrency := by
  induction n generalizing s with
  | zero => rfl
  | succ n ih =>
    by_cases h : s.npending < s.concurrency
    · cases hq : s.queued with
      | nil => rw [dispatchN_succ_nil n s hq]
      | cons r rest =>
        rw [dispatchN_succ_cons n s r rest hq h, ih]
        simp
    · rw [dispatchN_succ_full n s h]

theorem dispatchN_queueTolerance (n : Nat) (s : State) :
    (dispatchN n s).queueTolerance = s.queueTolerance := by
  induction n generalizing s with
  | zero => rfl
  | succ n ih =>
    by_cases h : s.npending < s.concurrency
    · cases hq : s.queued with
      | nil => rw [dispatchN_succ_nil n s hq]
      | cons r rest =>
        rw [dispatchN_succ_cons n s r rest hq h, ih]
        simp
    · rw [dispatchN_succ_full n s h]

theorem dispatchN_hasProbes (n : Nat) (s : State) :
    (dispatchN n s).hasProbes = s.hasProbes := by
  induction n generalizing s with
  | zero => rfl
  | succ n ih =>
    by_cases h : s.npending < s.concurrency
    · cases hq : s.queued with
      | nil => rw [dispatchN_succ_nil n s hq]
      | cons r rest =>
        rw [dispatchN_succ_cons n s r rest hq h, ih]
        simp
    · rw [dispatchN_succ_full n s h]

theorem dispatchN_npending_le (n : Nat) (s : State) (h : s.npending ≤ s.concurrency) :
    (dispatchN n s).npending ≤ s.concurrency := by
  induction n generalizing s with
  | zero => exact h
  | succ n ih =>
    by_cases hlt : s.npending < s.concurrency
    · cases hq : s.queued with
      | nil => rw [dispatchN_succ_nil n s hq]; exact h
      | cons r rest =>
        rw [dispatchN_succ_cons n s r rest hq hlt]
        have h2 := ih (doTask { s with queued := rest, npending := s.npending + 1 } r)
        simp at h2
        exact h2 hlt
    · rw [dispatchN_succ_full n s hlt]; exact h

theorem dispatchN_queued_length_le (n : Nat) (s : State) :
    (dispatchN n s).queued.length ≤ s.queued.length := by
  induction n generalizing s with
  | zero => exact Nat.le_refl _
  | succ n ih =>
    by_cases hlt : s.npending < s.concurrency
    · cases hq : s.queued with
      | nil =>
        rw [dispatchN_succ_nil n s hq, hq]
      | cons r rest =>
        rw [dispatchN_succ_cons n s r rest hq hlt]
        have h2 := ih (doTask { s with queued := rest, npending := s.npending + 1 } r)
        simp at h2
        exact le_trans h2 (by simp)
    · rw [dispatchN_succ_full n s hlt]

theorem dispatchN_countThrottled (n : Nat) (s : State) :
    countThrottled (dispatchN n s).nextCalls = countThrottled s.nextCalls := by
  induction n generalizing s with
  | zero => rfl
  | succ n ih =>
    by_cases hlt : s.npending < s.concurrency
    · cases hq : s.queued with
      | nil => rw [dispatchN_succ_nil n s hq]
      | cons r rest =>
        rw [dispatchN_succ_cons n s r rest hq hlt, ih]
        simp [countThrottled_append, countThrottled]
    · rw [dispatchN_succ_full n s hlt]

theorem dispatchN_conservation (n : Nat) (s : State) :
    (dispatchN n s).npending + (dispatchN n s).queued.length
      = s.npending + s.queued.length := by
  induction n generalizing s with
  | zero => rfl
  | succ n ih =>
    by_cases hlt : s.npending < s.concurrency
    · cases hq : s.queued with
      | nil => rw [dispatchN_succ_nil n s hq, hq]
      | cons r rest =>
        rw [dispatchN_succ_cons n s r rest hq hlt, ih]
        simp
        omega
    · rw [dispatchN_succ_full n s hlt]

theorem dispatchN_events_mono (n : Nat) (s : State) :
    ∃ t, (dispatchN n s).events = s.events ++ t := by
  induction n generalizing s with
  | zero => exact ⟨[], by simp [dispatchN]⟩
  | succ n ih =>
    by_cases hlt : s.npending < s.concurrency
    · cases hq : s.queued with
      | nil => exact ⟨[], by rw [dispatchN_succ_nil n s hq]; simp⟩
      | cons r rest =>
        rw [dispatchN_succ_cons n s r rest hq hlt]
        obtain ⟨t, ht⟩ := ih (doTask { s with queued := rest, npending := s.npending + 1 } r)
        rw [ht]
        by_cases hp : s.hasProbes
        · exact ⟨Event.queue_leave r.reqId :: t, by unfold doTask fire; simp [hp]⟩
        · exact ⟨t, by unfold doTask fire; simp [hp]⟩
    · exact ⟨[], by rw [dispatchN_succ_full n s hlt]; simp⟩

theorem wait_of_reject (s : State) (r : Req) (h : s.queueTolerance ≤ s.queued.length) :
    wait s r
      = { fire s (Event.request_throttled s.npending s.queued.length r.url r.method) with
          nextCalls := s.nextCalls
            ++ [NextCall.throttled r.reqId
                  (mkThrottledError s.npending s.concurrency s.queued.length
                    s.queueTolerance)] } := by
  unfold wait
  simp [h]

theorem wait_of_accept (s : State) (r : Req) (h : ¬ s.queueTolerance ≤ s.queued.length) :
    wait s r
      = dispatchAll { fire s (Event.queue_enter r.reqId) with queued := s.queued ++ [r] } := by
  unfold wait
  simp [h]

theorem afterRequest_of_none (s : State) (r : Req)
    (h : mapLookup s.taskCbFromReqId r.reqId = none) :
    afterRequest s r = warnNoTaskCb s r := by
  unfold afterRequest
  simp [h]

theorem afterRequest_of_some (s : State) (r : Req) (uid : Nat)
    (h : mapLookup s.taskCbFromReqId r.reqId = some uid) :
    afterRequest s r
      = taskCb (fire { s with taskCbFromReqId := mapDelete s.taskCbFromReqId r.reqId }
          (Event.request_handled s.npending s.queued.length r.url r.method)) := by
  unfold afterRequest
  simp [h]

theorem wait_concurrency (s : State) (r : Req) :
    (wait s r).concurrency = s.concurrency := by
  by_cases h : s.queueTolerance ≤ s.queued.length
  · rw [wait_of_reject s r h]
    simp
  · rw [wait_of_accept s r h]
    unfold dispatchAll
    rw [dispatchN_concurrency]
    simp

theorem wait_queueTolerance (s : State) (r : Req) :
    (wait s r).queueTolerance = s.queueTolerance := by
  by_cases h : s.queueTolerance ≤ s.queued.length
  · rw [wait_of_reject s r h]
    simp
  · rw [wait_of_accept s r h]
    unfold dispatchAll
    rw [dispatchN_queueTolerance]
    simp

theorem afterRequest_concurrency (s : State) (r : Req) :
    (afterRequest s r).concurrency = s.concurrency := by
  cases hl : mapLookup s.taskCbFromReqId r.reqId with
  | none => rw [afterRequest_of_none s r hl]; rfl
  | some uid =>
    rw [afterRequest_of_some s r uid hl]
    unfold taskCb dispatchAll
    rw [dispatchN_concurrency]
    simp

theorem afterRequest_queueTolerance (s : State) (r : Req) :
    (afterRequest s r).queueTolerance = s.queueTolerance := by
  cases hl : mapLookup s.taskCbFromReqId r.reqId with
  | none => rw [afterRequest_of_none s r hl]; rfl
  | some uid =>
    rw [afterRequest_of_some s r uid hl]
    unfold taskCb dispatchAll
    rw [dispatchN_queueTolerance]
    simp

/-- The two bounds the throttle maintains, together with the constancy
of the configured limits. -/
def Inv (conc tol : Nat) (s : State) : Prop :=
  s.concurrency = conc ∧ s.queueTolerance = tol
    ∧ s.npending ≤ conc ∧ s.queued.length ≤ tol
theorem wait_inv (conc tol : Nat) (s : State) (r : Req) (h : Inv conc tol s) :
    Inv conc tol (wait s r) := by
  obtain ⟨hc, ht, hp, hq⟩ := h
  by_cases hrej : s.queueTolerance ≤ s.queued.length
  · rw [wait_of_reject s r hrej]
    exact ⟨by simp [hc], by simp [ht], by simp [hp], by simp [hq]⟩
  · rw [wait_of_accept s r hrej]
    have hlen : s.queued.length + 1 ≤ tol := by
      rw [ht] at hrej
      omega
    unfold dispatchAll
    constructor
    · rw [dispatchN_concurrency]
      simp [hc]
    constructor
    · rw [dispatchN_queueTolerance]
      simp [ht]
    constructor
    · have h1 := dispatchN_npending_le
        ({ fire s (Event.queue_enter r.reqId) with queued := s.queued ++ [r] }).queued.length
        { fire s (Event.queue_enter r.reqId) with queued := s.queued ++ [r] }
        (by simp [hc, hp])
      simpa [hc] using h1
    · have h1 := dispatchN_queued_length_le
        ({ fire s (Event.queue_enter r.reqId) with queued := s.queued ++ [r] }).queued.length
        { fire s (Event.queue_enter r.reqId) with queued := s.queued ++ [r] }
      have h2 : ({ fire s (Event.queue_enter r.reqId) with
          queued := s.queued ++ [r] }).queued.length ≤ tol := by
        simp
        omega
      exact le_trans h1 h2

theorem afterRequest_inv (conc tol : Nat) (s : State) (r : Req) (h : Inv conc tol s) :
    Inv conc tol (afterRequest s r) := by
  obtain ⟨hc, ht, hp, hq⟩ := h
  cases hl : mapLookup s.taskCbFromReqId r.reqId with
  | none =>
    rw [afterRequest_of_none s r hl]
    exact ⟨hc, ht, hp, hq⟩
  | some uid =>
    rw [afterRequest_of_some s r uid hl]
    unfold taskCb dispatchAll
    constructor
    · rw [dispatchN_concurrency]
      simp [hc]
    constructor
    · rw [dispatchN_queueTolerance]
      simp [ht]
    constructor
    · have h1 := dispatchN_npending_le
        ({ fire { s with taskCbFromReqId := mapDelete s.taskCbFromReqId r.reqId }
            (Event.request_handled s.npending s.queued.length r.url r.method) with
            npending := (fire { s with taskCbFromReqId := mapDelete s.taskCbFromReqId r.reqId }
              (Event.request_handled s.npending s.queued.length r.url r.method)).npending
                - 1 }).queued.length
        { fire { s with taskCbFromReqId := mapDelete s.taskCbFromReqId r.reqId }
            (Event.request_handled s.npending s.queued.length r.url r.method) with
            npending := (fire { s with taskCbFromReqId := mapDelete s.taskCbFromReqId r.reqId }
              (Event.request_handled s.npending s.queued.length r.url r.method)).npending
                - 1 }
        (by
          simp
          omega)
      simpa [hc] using h1
    · have h1 := dispatchN_queued_length_le
        ({ fire { s with taskCbFromReqId := mapDelete s.taskCbFromReqId r.reqId }
            (Event.request_handled s.npending s.queued.length r.url r.method) with
            npending := (fire { s with taskCbFromReqId := mapDelete s.taskCbFromReqId r.reqId }
              (Event.request_handled s.npending s.queued.length r.url r.method)).npending
                - 1 }).queued.length
        { fire { s with taskCbFromReqId := mapDelete s.taskCbFromReqId r.reqId }
            (Event.request_handled s.npending s.queued.length r.url r.method) with
            npending := (fire { s with taskCbFromReqId := mapDelete s.taskCbFromReqId r.reqId }
              (Event.request_handled s.npending s.queued.length r.url r.method)).npending
                - 1 }
      refine le_trans h1 ?_
      simp
      exact hq

theorem run_inv (conc tol : Nat) (s : State) (ops : List Op) (h : Inv conc tol s) :
    Inv conc tol (run s ops) := by
  induction ops generalizing s with
  | nil => exact h
  | cons op rest ih =>
    cases op with
    | wait r => exact ih (wait s r) (wait_inv conc tol s r h)
    | afterRequest r => exact ih (afterRequest s r) (afterRequest_inv conc tol s r h)

theorem dispatchAll_of_full (s2 : State) (h : s2.concurrency ≤ s2.npending) :
    dispatchAll s2 = s2 :=
  dispatchN_of_full _ s2 h

theorem dispatchAll_single (s2 : State) (r : Req) (hq : s2.queued = [r])
    (h : s2.npending < s2.concurrency) :
    dispatchAll s2 = doTask { s2 with queued := [], npending := s2.npending + 1 } r := by
  unfold dispatchAll
  rw [hq]
  show dispatchN (0 + 1) s2 = _
  rw [dispatchN_succ_cons 0 s2 r [] hq h]
  rfl

theorem arrivals_succ (conc tol : Nat) (f : Nat → Req) (k : Nat) :
    arrivals conc tol f (k + 1) = wait (arrivals conc tol f k) (f k) := by
  unfold arrivals run
  rw [List.range_succ, List.map_append, List.foldl_append]
  rfl

theorem arrivals_fill (conc tol : Nat) (f : Nat → Req) (hT : 0 < tol) (k : Nat)
    (hk : k ≤ conc + tol) :
    (arrivals conc tol f k).npending = min k conc
    ∧ (arrivals conc tol f k).queued.length = k - conc
    ∧ countThrottled (arrivals conc tol f k).nextCalls = 0
    ∧ (arrivals conc tol f k).concurrency = conc
    ∧ (arrivals conc tol f k).queueTolerance = tol
    ∧ (arrivals conc tol f k).hasProbes = false := by
  induction k with
  | zero =>
    refine ⟨?_, ?_, rfl, rfl, rfl, rfl⟩
    · show (0 : Nat) = min 0 conc
      simp
    · show (0 : Nat) = 0 - conc
      simp
  | succ k ih =>
    obtain ⟨hnp, hql, hct, hc, ht, hpr⟩ := ih (Nat.le_of_succ_le hk)
    rw [arrivals_succ]
    have hadm : ¬ (arrivals conc tol f k).queueTolerance
        ≤ (arrivals conc tol f k).queued.length := by
      rw [ht, hql]
      omega
    rw [wait_of_accept _ _ hadm]
    by_cases hfull : conc ≤ k
    · have hnp2 : (arrivals conc tol f k).npending = conc := by
        rw [hnp]
        omega
      rw [dispatchAll_of_full _ (by simp [hc, hnp2])]
      refine ⟨?_, ?_, ?_, ?_, ?_, ?_⟩
      · simp [hnp2]
        omega
      · simp [hql]
        omega
      · simp [hct]
      · simp [hc]
      · simp [ht]
      · simp [hpr]
    · have hqnil : (arrivals conc tol f k).queued = [] := by
        have h0 : (arrivals conc tol f k).queued.length = 0 := by
          rw [hql]
          omega
        exact List.length_eq_zero.mp h0
      have hnp3 : (arrivals conc tol f k).npending = k := by
        rw [hnp]
        omega
      rw [dispatchAll_single _ (f k) (by simp [hqnil]) (by simp [hc, hnp3]; omega)]
      refine ⟨?_, ?_, ?_, ?_, ?_, ?_⟩
      · simp [hnp3]
        omega
      · simp
        omega
      · simp [countThrottled_append, countThrottled, hct]
      · simp [hc]
      · simp [ht]
      · simp [hpr]

/-- C1: for every sequence of begin (wait) and complete (afterRequest)
calls on a throttle constructed with concurrency conc and
queueTolerance tol, the running count satisfies 0 <= npending <= conc
and the waiting count satisfies 0 <= queued.length <= tol (the counts
are naturals, hence nonnegative); and a unit arriving when the waiting
count is at or above tol is rejected, never enqueued: the queue, the
running count and the callback map are unchanged and the next
continuation receives one more ThrottledError. -/
theorem throttle_c1_counts_bounded (conc tol : Nat) (probes : Bool) (ops : List Op) :
    ((run (initState conc tol probes) ops).npending ≤ conc
      ∧ (run (initState conc tol probes) ops).queued.length ≤ tol)
    ∧ (∀ r : Req, tol ≤ (run (initState conc tol probes) ops).queued.length →
        (wait (run (initState conc tol probes) ops) r).queued
            = (run (initState conc tol probes) ops).queued
        ∧ (wait (run (initState conc tol probes) ops) r).npending
            = (run (initState conc tol probes) ops).npending
        ∧ (wait (run (initState conc tol probes) ops) r).taskCbFromReqId
            = (run (initState conc tol probes) ops).taskCbFromReqId
        ∧ countThrottled (wait (run (initState conc tol probes) ops) r).nextCalls
            = countThrottled (run (initState conc tol probes) ops).nextCalls + 1) := by
  obtain ⟨hc, ht, hp, hq⟩ := run_inv conc tol (initState conc tol probes) ops
    ⟨rfl, rfl, Nat.zero_le _, Nat.zero_le _⟩
  refine ⟨⟨hp, hq⟩, ?_⟩
  intro r hr
  have hrej : (run (initState conc tol probes) ops).queueTolerance
      ≤ (run (initState conc tol probes) ops).queued.length := by
    rw [ht]
    exact hr
  rw [wait_of_reject _ r hrej]
  refine ⟨by simp, by simp, by simp, ?_⟩
  simp [countThrottled_append, countThrottled]

/-- Closed witness for C1 on a throttle with one slot and one queue
place after two arrivals: the queue is full and a third arrival is
rejected without being enqueued. -/
theorem throttle_c1_counts_bounded_witness :
    (1 ≤ (run (initState 1 1 false) [Op.wait reqA, Op.wait reqB]).queued.length)
    ∧ (wait (run (initState 1 1 false) [Op.wait reqA, Op.wait reqB]) reqC).queued
        = (run (initState 1 1 false) [Op.wait reqA, Op.wait reqB]).queued
    ∧ countThrottled
        (wait (run (initState 1 1 false) [Op.wait reqA, Op.wait reqB]) reqC).nextCalls
        = countThrottled (run (initState 1 1 false) [Op.wait reqA, Op.wait reqB]).nextCalls
            + 1 :=
  ⟨by decide,
   ((throttle_c1_counts_bounded 1 1 false [Op.wait reqA, Op.wait reqB]).2 reqC (by decide)).1,
   ((throttle_c1_counts_bounded 1 1 false [Op.wait reqA, Op.wait reqB]).2 reqC
       (by decide)).2.2.2⟩

/-- C2: on a throttle with concurrency conc > 0 and queueTolerance
tol > 0, when conc + tol + 1 units arrive with none completed, every
one of the first conc + tol calls is admitted (no ThrottledError is
produced and each admitted task is accounted for in the dispatcher as
running or queued), while the last call is rejected: the whole state is
unchanged except that the next continuation receives a ThrottledError
built from the full counts. -/
theorem throttle_c2_admit_then_reject (conc tol : Nat) (f : Nat → Req)
    (_hC : 0 < conc) (hT : 0 < tol) (k : Nat) (hk : k < conc + tol) :
    countThrottled (arrivals conc tol f (k + 1)).nextCalls = 0
    ∧ (arrivals conc tol f (k + 1)).npending
        + (arrivals conc tol f (k + 1)).queued.length = k + 1
    ∧ arrivals conc tol f (conc + tol + 1)
        = { arrivals conc tol f (conc + tol) with
            nextCalls := (arrivals conc tol f (conc + tol)).nextCalls
              ++ [NextCall.throttled (f (conc + tol)).reqId
                    (mkThrottledError conc conc tol tol)] } := by
  obtain ⟨hnp, hql, hct, hc, ht, hpr⟩ := arrivals_fill conc tol f hT (k + 1) (by omega)
  obtain ⟨hnp2, hql2, hct2, hc2, ht2, hpr2⟩ :=
    arrivals_fill conc tol f hT (conc + tol) (by omega)
  refine ⟨hct, ?_, ?_⟩
  · rw [hnp, hql]
    omega
  · rw [arrivals_succ]
    have hrej : (arrivals conc tol f (conc + tol)).queueTolerance
        ≤ (arrivals conc tol f (conc + tol)).queued.length := by
      rw [ht2, hql2]
      omega
    rw [wait_of_reject _ _ hrej]
    have hfire : fire (arrivals conc tol f (conc + tol))
        (Event.request_throttled (arrivals conc tol f (conc + tol)).npending
          (arrivals conc tol f (conc + tol)).queued.length
          (f (conc + tol)).url (f (conc + tol)).method)
        = arrivals conc tol f (conc + tol) := by
      unfold fire
      rw [hpr2]
      simp
    rw [hfire, hnp2, hc2, hql2, ht2]
    have hmin : min (conc + tol) conc = conc := by omega
    rw [hmin]
    have hsub : conc + tol - conc = tol := by omega
    rw [hsub]

/-- Closed witness for C2 with one slot and one queue place: the first
two arrivals are admitted, the third is rejected with the default
ThrottledError. -/
theorem throttle_c2_admit_then_reject_witness :
    countThrottled (arrivals 1 1 reqOf (1 + 1)).nextCalls = 0
    ∧ (arrivals 1 1 reqOf (1 + 1)).npending
        + (arrivals 1 1 reqOf (1 + 1)).queued.length = 1 + 1
    ∧ arrivals 1 1 reqOf (1 + 1 + 1)
        = { arrivals 1 1 reqOf (1 + 1) with
            nextCalls := (arrivals 1 1 reqOf (1 + 1)).nextCalls
              ++ [NextCall.throttled (reqOf (1 + 1)).reqId
                    (mkThrottledError 1 1 1 1)] } :=
  throttle_c2_admit_then_reject 1 1 reqOf (by decide) (by decide) 1 (by decide)

/-- C10: a complete (afterRequest) call whose request id has no entry
in taskCbFromReqId changes nothing but the console log: no map entry is
removed, no request_handled event is fired, no stored callback is
invoked, and the running and waiting sets are exactly as before. -/
theorem throttle_c10_unknown_token_frame (s : State) (r : Req)
    (h : mapLookup s.taskCbFromReqId r.reqId = none) :
    afterRequest s r
        = { s with warnings := s.warnings ++ ["no taskCb for reqId " ++ r.reqId] }
    ∧ (afterRequest s r).taskCbFromReqId = s.taskCbFromReqId
    ∧ (afterRequest s r).events = s.events
    ∧ (afterRequest s r).nextCalls = s.nextCalls
    ∧ (afterRequest s r).npending = s.npending
    ∧ (afterRequest s r).queued = s.queued := by
  rw [afterRequest_of_none s r h]
  exact ⟨rfl, rfl, rfl, rfl, rfl, rfl⟩

/-- Closed witness for C10 on a fresh throttle with an empty callback
map. -/
theorem throttle_c10_unknown_token_frame_witness :
    afterRequest (initState 2 2 false) reqA
        = { initState 2 2 false with
            warnings := (initState 2 2 false).warnings
              ++ ["no taskCb for reqId " ++ reqA.reqId] }
    ∧ (afterRequest (initState 2 2 false) reqA).npending = (initState 2 2 false).npending :=
  ⟨(throttle_c10_unknown_token_frame (initState 2 2 false) reqA (by decide)).1,
   (throttle_c10_unknown_token_frame (initState 2 2 false) reqA (by decide)).2.2.2.2.1⟩

/-- C5: on the rejection path of wait, taken exactly when the queue
length has reached queueTolerance at the admission check, the
request_throttled probe fires with the current running and waiting
counts, the next continuation synchronously receives the
ThrottledError, no callback entry or fresh closure is created, and the
dispatcher state is untouched; and a call that finds the queue below
tolerance produces no ThrottledError. -/
theorem throttle_c5_reject_path (s : State) (r : Req)
    (hp : s.hasProbes = true) (h : s.queueTolerance ≤ s.queued.length) :
    (wait s r).events
        = s.events ++ [Event.request_throttled s.npending s.queued.length r.url r.method]
    ∧ (wait s r).nextCalls
        = s.nextCalls ++ [NextCall.throttled r.reqId
            (mkThrottledError s.npending s.concurrency s.queued.length s.queueTolerance)]
    ∧ (wait s r).taskCbFromReqId = s.taskCbFromReqId
    ∧ (wait s r).nextUid = s.nextUid
    ∧ (wait s r).queued = s.queued
    ∧ (wait s r).npending = s.npending
    ∧ (∀ t : State, ∀ q : Req, t.queued.length < t.queueTolerance →
        countThrottled (wait t q).nextCalls = countThrottled t.nextCalls) := by
  rw [wait_of_reject s r h]
  refine ⟨?_, by simp, by simp, by simp, by simp, by simp, ?_⟩
  · show (fire s (Event.request_throttled s.npending s.queued.length r.url r.method)).events
        = s.events ++ [Event.request_throttled s.npending s.queued.length r.url r.method]
    unfold fire
    rw [hp]
    simp
  · intro t q hlt
    rw [wait_of_accept t q (Nat.not_le.mpr hlt)]
    unfold dispatchAll
    rw [dispatchN_countThrottled]
    simp

/-- Closed witness for C5 at a state with one running task and a full
queue of one, probes enabled. -/
theorem throttle_c5_reject_path_witness :
    fullSt.hasProbes = true
    ∧ fullSt.queueTolerance ≤ fullSt.queued.length
    ∧ (wait fullSt reqC).events
        = fullSt.events
          ++ [Event.request_throttled fullSt.npending fullSt.queued.length
                reqC.url reqC.method]
    ∧ (wait fullSt reqC).nextCalls
        = fullSt.nextCalls ++ [NextCall.throttled reqC.reqId
            (mkThrottledError fullSt.npending fullSt.concurrency fullSt.queued.length
              fullSt.queueTolerance)] :=
  ⟨by decide, by decide,
   (throttle_c5_reject_path fullSt reqC (by decide) (by decide)).1,
   (throttle_c5_reject_path fullSt reqC (by decide) (by decide)).2.1⟩

/-- C6: in afterRequest with a live token and probes enabled, the
request_handled event is recorded before the stored callback runs: the
whole call equals the release callback applied to the state that
already holds the event, and the event payload carries the pre-release
counts (the running count before the slot is freed and the queue length
before any waiting task starts). -/
theorem throttle_c6_event_before_release (s : State) (r : Req) (uid : Nat)
    (hp : s.hasProbes = true) (h : mapLookup s.taskCbFromReqId r.reqId = some uid) :
    afterRequest s r
        = taskCb { s with
            taskCbFromReqId := mapDelete s.taskCbFromReqId r.reqId,
            events := s.events
              ++ [Event.request_handled s.npending s.queued.length r.url r.method] }
    ∧ ∃ tail, (afterRequest s r).events
        = s.events
          ++ Event.request_handled s.npending s.queued.length r.url r.method :: tail := by
  have h1 := afterRequest_of_some s r uid h
  have hfx : fire { s with taskCbFromReqId := mapDelete s.taskCbFromReqId r.reqId }
      (Event.request_handled s.npending s.queued.length r.url r.method)
      = { s with
          taskCbFromReqId := mapDelete s.taskCbFromReqId r.reqId,
          events := s.events
            ++ [Event.request_handled s.npending s.queued.length r.url r.method] } := by
    unfold fire
    simp [hp]
  constructor
  · rw [h1, hfx]
  · rw [h1, hfx]
    unfold taskCb dispatchAll
    obtain ⟨t, htl⟩ := dispatchN_events_mono _ _
    rw [htl]
    exact ⟨t, by simp⟩

/-- Closed witness for C6 at a state with one running task, probes
enabled. -/
theorem throttle_c6_event_before_release_witness :
    oneRunningSt.hasProbes = true
    ∧ mapLookup oneRunningSt.taskCbFromReqId reqA.reqId = some 0
    ∧ afterRequest oneRunningSt reqA
        = taskCb { oneRunningSt with
            taskCbFromReqId := mapDelete oneRunningSt.taskCbFromReqId reqA.reqId,
            events := oneRunningSt.events
              ++ [Event.request_handled oneRunningSt.npending
                    oneRunningSt.queued.length reqA.url reqA.method] } :=
  ⟨by decide, by decide,
   (throttle_c6_event_before_release oneRunningSt reqA 0 (by decide) (by decide)).1⟩

/-- C4 counterexample: after a unit is admitted and completed on a
fresh throttle, completing the same token a second time is exactly a
console warning and a return: the resulting state equals the previous
state with one more warning line, so no error of any kind is raised
(the next continuation list is unchanged) and no second slot is freed
(the running count is unchanged). -/
theorem throttle_c4_double_complete_only_warns :
    afterRequest (afterRequest (wait (initState 1 1 false) reqA) reqA) reqA
        = { afterRequest (wait (initState 1 1 false) reqA) reqA with
            warnings := (afterRequest (wait (initState 1 1 false) reqA) reqA).warnings
              ++ ["no taskCb for reqId " ++ reqA.reqId] }
    ∧ (afterRequest (afterRequest (wait (initState 1 1 false) reqA) reqA) reqA).npending
        = (afterRequest (wait (initState 1 1 false) reqA) reqA).npending
    ∧ (afterRequest (afterRequest (wait (initState 1 1 false) reqA) reqA) reqA).nextCalls
        = (afterRequest (wait (initState 1 1 false) reqA) reqA).nextCalls := by
  decide

/-- C4 as amended: completing a live token removes its entry and
invokes the stored release callback exactly once (with an empty queue
this frees exactly one slot and leaves the entry deleted); completing a
token with no live entry, including a second completion of the same
token, only logs a warning and leaves the throttle state unchanged,
freeing no second slot and raising no error. -/
theorem throttle_c4_amended_complete (s : State) (r : Req) (uid : Nat)
    (h : mapLookup s.taskCbFromReqId r.reqId = some uid) :
    afterRequest s r
        = taskCb (fire { s with taskCbFromReqId := mapDelete s.taskCbFromReqId r.reqId }
            (Event.request_handled s.npending s.queued.length r.url r.method))
    ∧ (s.queued = [] → (afterRequest s r).npending = s.npending - 1)
    ∧ (s.queued = [] →
        (afterRequest s r).taskCbFromReqId = mapDelete s.taskCbFromReqId r.reqId)
    ∧ (∀ t : State, ∀ q : Req, mapLookup t.taskCbFromReqId q.reqId = none →
        afterRequest t q
          = { t with warnings := t.warnings ++ ["no taskCb for reqId " ++ q.reqId] }) := by
  refine ⟨afterRequest_of_some s r uid h, ?_, ?_, ?_⟩
  · intro hq
    rw [afterRequest_of_some s r uid h]
    unfold taskCb dispatchAll
    rw [dispatchN_of_empty _ _ (by simp [hq])]
    simp
  · intro hq
    rw [afterRequest_of_some s r uid h]
    unfold taskCb dispatchAll
    rw [dispatchN_of_empty _ _ (by simp [hq])]
    simp
  · intro t q hn
    rw [afterRequest_of_none t q hn]
    rfl

/-- Closed witness for the amended C4 at a state with one running task
and an empty queue. -/
theorem throttle_c4_amended_complete_witness :
    mapLookup oneRunningSt.taskCbFromReqId reqA.reqId = some 0
    ∧ oneRunningSt.queued = []
    ∧ (afterRequest oneRunningSt reqA).npending = oneRunningSt.npending - 1
    ∧ (afterRequest oneRunningSt reqA).taskCbFromReqId
        = mapDelete oneRunningSt.taskCbFromReqId reqA.reqId :=
  ⟨by decide, by decide,
   (throttle_c4_amended_complete oneRunningSt reqA 0 (by decide)).2.1 (by decide),
   (throttle_c4_amended_complete oneRunningSt reqA 0 (by decide)).2.2.1 (by decide)⟩

/-- C3 evidence: the completion key is the caller-supplied request id,
not a throttle-minted token.  On a throttle with two slots, two
admitted units whose caller-supplied ids collide share the single key
"a": both run (npending = 2) yet the callback map holds one entry, the
later registration (closure tag 1) having overwritten the earlier
(closure tag 0).  Completing "a" once frees one slot and empties the
map, so the second completion finds nothing and the remaining slot is
never freed (npending stays 1). -/
theorem throttle_c3_caller_id_key_shared :
    (run (initState 2 2 false) [Op.wait reqA, Op.wait reqA2]).npending = 2
    ∧ (run (initState 2 2 false) [Op.wait reqA, Op.wait reqA2]).taskCbFromReqId
        = [("a", 1)]
    ∧ (afterRequest (run (initState 2 2 false) [Op.wait reqA, Op.wait reqA2]) reqA).npending
        = 1
    ∧ (afterRequest (run (initState 2 2 false)
          [Op.wait reqA, Op.wait reqA2]) reqA).taskCbFromReqId = []
    ∧ (afterRequest (afterRequest (run (initState 2 2 false)
          [Op.wait reqA, Op.wait reqA2]) reqA) reqA2).npending = 1 := by
  decide

/-- C7 evidence: construction succeeds with a createThrottledError
factory supplied, yet the rejection on a full queue hands the next
continuation the built-in ThrottledError VError, not the error the
factory would produce: the factory is never consulted. -/
theorem throttle_c7_factory_ignored :
    throttleConstructs
        { concurrency := JsVal.num 1, queueTolerance := JsVal.num 1, dtp := false,
          createThrottledError := some serviceUnavailableFactory } = true
    ∧ (wait (run (mkThrottleState
          { concurrency := JsVal.num 1, queueTolerance := JsVal.num 1, dtp := false,
            createThrottledError := some serviceUnavailableFactory })
          [Op.wait reqA, Op.wait reqB]) reqC).nextCalls
        = [NextCall.proceed "a", NextCall.throttled "c" (mkThrottledError 1 1 1 1)]
    ∧ (mkThrottledError 1 1 1 1).name = "ThrottledError"
    ∧ mkThrottledError 1 1 1 1 ≠ serviceUnavailableFactory reqC := by
  refine ⟨?_, ?_, rfl, ?_⟩
  · decide
  · decide
  · decide

/-- C8 counterexample: the constructor accepts queueTolerance five
halves, a positive number that is not an integer, with concurrency 1:
queueTolerance only passes through the assert-plus number and
positivity checks and never reaches the vasync queue, whose
integrality assertion applies to concurrency alone.  So construction
does not fail for every non-integer limit as the claim states. -/
theorem throttle_c8_noninteger_accepted :
    throttleConstructs
        { concurrency := JsVal.num 1, queueTolerance := JsVal.num fiveHalves,
          dtp := false, createThrottledError := none } = true
    ∧ isPositiveIntegerJs (JsVal.num fiveHalves) = false := by
  constructor
  · decide
  · decide

/-- C8 as amended: construction succeeds exactly when concurrency is a
JavaScript number strictly greater than zero and equal to its floor (a
positive integer, or positive infinity, enforced by the assert-plus
checks together with the vasync WorkQueue assertions) and
queueTolerance is a JavaScript number (not NaN) strictly greater than
zero; a positive non-integer queueTolerance is accepted, since only
concurrency is handed to the vasync queue. -/
theorem throttle_c8_amended_ctor_iff (o : Options) :
    throttleConstructs o = true
      ↔ IsPositiveIntegralJsNumber o.concurrency ∧ IsPositiveJsNumber o.queueTolerance := by
  obtain ⟨c, t, d, f⟩ := o
  show (assertNumberOk c && jsGtZero c && assertNumberOk t && jsGtZero t
      && vasyncConcurrencyOk c) = true
      ↔ IsPositiveIntegralJsNumber c ∧ IsPositiveJsNumber t
  unfold IsPositiveIntegralJsNumber IsPositiveJsNumber
  cases c <;> cases t <;>
    simp [assertNumberOk, jsGtZero, vasyncConcurrencyOk] <;>
    tauto

theorem fireE_false (s : State) (e : Event) :
    fireE (fun _ => false) s e = Except.ok (fire s e) := by
  unfold fireE fire
  split <;> rfl

theorem doTaskE_false (s : State) (r : Req) :
    doTaskE (fun _ => false) s r = Except.ok (doTask s r) := by
  unfold doTaskE doTask
  rw [fireE_false]

theorem dispatchNE_false (n : Nat) (s : State) :
    dispatchNE (fun _ => false) n s = Except.ok (dispatchN n s) := by
  induction n generalizing s with
  | zero => rfl
  | succ n ih =>
    by_cases hlt : s.npending < s.concurrency
    · cases hq : s.queued with
      | nil =>
        rw [dispatchN_succ_nil n s hq]
        unfold dispatchNE
        simp [hlt, hq]
      | cons r rest =>
        rw [dispatchN_succ_cons n s r rest hq hlt]
        unfold dispatchNE
        simp [hlt, hq, doTaskE_false, ih]
    · rw [dispatchN_succ_full n s hlt]
      unfold dispatchNE
      simp [hlt]

theorem waitE_false (s : State) (r : Req) :
    waitE (fun _ => false) s r = Except.ok (wait s r) := by
  unfold waitE wait
  by_cases h : s.queueTolerance ≤ s.queued.length
  · simp [h, fireE_false]
  · simp [h, fireE_false, dispatchAllE, dispatchAll, dispatchNE_false]

theorem afterRequestE_false (s : State) (r : Req) :
    afterRequestE (fun _ => false) s r = Except.ok (afterRequest s r) := by
  unfold afterRequestE afterRequest
  cases hl : mapLookup s.taskCbFromReqId r.reqId with
  | none => rfl
  | some uid =>
    simp [fireE_false, taskCbE, taskCb, dispatchAllE, dispatchAll, dispatchNE_false]

theorem doTask_core (s : State) (r : Req) :
    (doTask s r).core
      = { s.core with
          taskCbFromReqId := mapInsert s.taskCbFromReqId r.reqId s.nextUid,
          nextUid := s.nextUid + 1,
          nextCalls := s.nextCalls ++ [NextCall.proceed r.reqId] } := by
  unfold doTask fire State.core
  split <;> rfl

theorem warnNoTaskCb_core (s : State) (r : Req) :
    (warnNoTaskCb s r).core
      = { s.core with warnings := s.warnings ++ ["no taskCb for reqId " ++ r.reqId] } :=
  rfl

theorem setQueuedNpending_core (s : State) (l : List Req) (n : Nat) :
    ({ s with queued := l, npending := n }).core
      = { s.core with queued := l, npending := n } :=
  rfl

theorem setNpending_core (s : State) (n : Nat) :
    ({ s with npending := n }).core = { s.core with npending := n } :=
  rfl

theorem setTaskCb_core (s : State) (d : List (String × Nat)) :
    ({ s with taskCbFromReqId := d }).core = { s.core with taskCbFromReqId := d } :=
  rfl

theorem pushQueued_core (s : State) (e : Event) (l : List Req) :
    ({ fire s e with queued := l }).core = { s.core with queued := l } := by
  unfold fire State.core
  split <;> rfl

theorem setNextCalls_fire_core (s : State) (e : Event) (L : List NextCall) :
    ({ fire s e with nextCalls := L }).core = { s.core with nextCalls := L } := by
  unfold fire State.core
  split <;> rfl

theorem doTask_core_congr (s t : State) (r : Req) (h : s.core = t.core) :
    (doTask s r).core = (doTask t r).core := by
  have h5 : s.taskCbFromReqId = t.taskCbFromReqId := congrArg CoreView.taskCbFromReqId h
  have h6 : s.nextUid = t.nextUid := congrArg CoreView.nextUid h
  have h7 : s.nextCalls = t.nextCalls := congrArg CoreView.nextCalls h
  rw [doTask_core, doTask_core, h, h5, h6, h7]

theorem dispatchN_core_congr (n : Nat) (s t : State) (h : s.core = t.core) :
    (dispatchN n s).core = (dispatchN n t).core := by
  induction n generalizing s t with
  | zero => exact h
  | succ n ih =>
    have hcc : s.concurrency = t.concurrency := congrArg CoreView.concurrency h
    have htt : s.queueTolerance = t.queueTolerance := congrArg CoreView.queueTolerance h
    have hnp : s.npending = t.npending := congrArg CoreView.npending h
    have hqq : s.queued = t.queued := congrArg CoreView.queued h
    have hmp : s.taskCbFromReqId = t.taskCbFromReqId := congrArg CoreView.taskCbFromReqId h
    have huu : s.nextUid = t.nextUid := congrArg CoreView.nextUid h
    have hnn : s.nextCalls = t.nextCalls := congrArg CoreView.nextCalls h
    have hww : s.warnings = t.warnings := congrArg CoreView.warnings h
    by_cases hlt : s.npending < s.concurrency
    · have hlt2 : t.npending < t.concurrency := by
        rw [← hnp, ← hcc]
        exact hlt
      cases hq : s.queued with
      | nil =>
        have hq2 : t.queued = [] := by
          rw [← hqq]
          exact hq
        rw [dispatchN_succ_nil n s hq, dispatchN_succ_nil n t hq2]
        exact h
      | cons r rest =>
        have hq2 : t.queued = r :: rest := by
          rw [← hqq]
          exact hq
        rw [dispatchN_succ_cons n s r rest hq hlt, dispatchN_succ_cons n t r rest hq2 hlt2]
        apply ih
        apply doTask_core_congr
        show (⟨s.concurrency, s.queueTolerance, s.npending + 1, rest, s.taskCbFromReqId,
            s.nextUid, s.nextCalls, s.warnings⟩ : CoreView)
          = ⟨t.concurrency, t.queueTolerance, t.npending + 1, rest, t.taskCbFromReqId,
             t.nextUid, t.nextCalls, t.warnings⟩
        rw [hcc, htt, hnp, hmp, huu, hnn, hww]
    · have hlt2 : ¬ t.npending < t.concurrency := by
        rw [← hnp, ← hcc]
        exact hlt
      rw [dispatchN_succ_full n s hlt, dispatchN_succ_full n t hlt2]
      exact h

theorem dispatchAll_core_congr (s t : State) (h : s.core = t.core) :
    (dispatchAll s).core = (dispatchAll t).core := by
  have hqq : s.queued = t.queued := congrArg CoreView.queued h
  unfold dispatchAll
  rw [hqq]
  exact dispatchN_core_congr _ s t h

theorem taskCb_core_congr (s t : State) (h : s.core = t.core) :
    (taskCb s).core = (taskCb t).core := by
  have hcc : s.concurrency = t.concurrency := congrArg CoreView.concurrency h
  have htt : s.queueTolerance = t.queueTolerance := congrArg CoreView.queueTolerance h
  have hnp : s.npending = t.npending := congrArg CoreView.npending h
  have hqq : s.queued = t.queued := congrArg CoreView.queued h
  have hmp : s.taskCbFromReqId = t.taskCbFromReqId := congrArg CoreView.taskCbFromReqId h
  have huu : s.nextUid = t.nextUid := congrArg CoreView.nextUid h
  have hnn : s.nextCalls = t.nextCalls := congrArg CoreView.nextCalls h
  have hww : s.warnings = t.warnings := congrArg CoreView.warnings h
  unfold taskCb
  apply dispatchAll_core_congr
  show (⟨s.concurrency, s.queueTolerance, s.npending - 1, s.queued, s.taskCbFromReqId,
      s.nextUid, s.nextCalls, s.warnings⟩ : CoreView)
    = ⟨t.concurrency, t.queueTolerance, t.npending - 1, t.queued, t.taskCbFromReqId,
       t.nextUid, t.nextCalls, t.warnings⟩
  rw [hcc, htt, hnp, hqq, hmp, huu, hnn, hww]

theorem wait_core_congr (s t : State) (r : Req) (h : s.core = t.core) :
    (wait s r).core = (wait t r).core := by
  have hcc : s.concurrency = t.concurrency := congrArg CoreView.concurrency h
  have htt : s.queueTolerance = t.queueTolerance := congrArg CoreView.queueTolerance h
  have hnp : s.npending = t.npending := congrArg CoreView.npending h
  have hqq : s.queued = t.queued := congrArg CoreView.queued h
  have hnn : s.nextCalls = t.nextCalls := congrArg CoreView.nextCalls h
  by_cases hrej : s.queueTolerance ≤ s.queued.length
  · have hrej2 : t.queueTolerance ≤ t.queued.length := by
      rw [← htt, ← hqq]
      exact hrej
    rw [wait_of_reject s r hrej, wait_of_reject t r hrej2]
    rw [setNextCalls_fire_core, setNextCalls_fire_core, h, hnn, hnp, hcc, hqq, htt]
  · have hrej2 : ¬ t.queueTolerance ≤ t.queued.length := by
      rw [← htt, ← hqq]
      exact hrej
    rw [wait_of_accept s r hrej, wait_of_accept t r hrej2]
    apply dispatchAll_core_congr
    rw [pushQueued_core, pushQueued_core, h, hqq]

theorem afterRequest_core_congr (s t : State) (r : Req) (h : s.core = t.core) :
    (afterRequest s r).core = (afterRequest t r).core := by
  have hcc : s.concurrency = t.concurrency := congrArg CoreView.concurrency h
  have htt : s.queueTolerance = t.queueTolerance := congrArg CoreView.queueTolerance h
  have hnp : s.npending = t.npending := congrArg CoreView.npending h
  have hqq : s.queued = t.queued := congrArg CoreView.queued h
  have hmp : s.taskCbFromReqId = t.taskCbFromReqId := congrArg CoreView.taskCbFromReqId h
  have huu : s.nextUid = t.nextUid := congrArg CoreView.nextUid h
  have hnn : s.nextCalls = t.nextCalls := congrArg CoreView.nextCalls h
  have hww : s.warnings = t.warnings := congrArg CoreView.warnings h
  cases hl : mapLookup s.taskCbFromReqId r.reqId with
  | none =>
    have hl2 : mapLookup t.taskCbFromReqId r.reqId = none := by
      rw [← hmp]
      exact hl
    rw [afterRequest_of_none s r hl, afterRequest_of_none t r hl2]
    rw [warnNoTaskCb_core, warnNoTaskCb_core, h, hww]
  | some uid =>
    have hl2 : mapLookup t.taskCbFromReqId r.reqId = some uid := by
      rw [← hmp]
      exact hl
    rw [afterRequest_of_some s r uid hl, afterRequest_of_some t r uid hl2]
    apply taskCb_core_congr
    rw [fire_core, fire_core]
    show (⟨s.concurrency, s.queueTolerance, s.npending, s.queued,
        mapDelete s.taskCbFromReqId r.reqId, s.nextUid, s.nextCalls,
        s.warnings⟩ : CoreView)
      = ⟨t.concurrency, t.queueTolerance, t.npending, t.queued,
         mapDelete t.taskCbFromReqId r.reqId, t.nextUid, t.nextCalls, t.warnings⟩
    rw [hcc, htt, hnp, hqq, hmp, huu, hnn, hww]

/-- C9 counterexample: with probes enabled and an observer whose fire
call throws, a completion call propagates the exception out of
afterRequest (the call ends in the thrown outcome rather than
returning) and corrupts the throttle state: the pending entry has
already been deleted but the stored callback is never invoked, so the
running count stays at 1 with no live entry left to ever release that
slot. -/
theorem throttle_c9_observer_throw_corrupts :
    afterRequestE (fun _ => true) oneRunningSt reqA
        = Except.error { oneRunningSt with taskCbFromReqId := [] }
    ∧ ({ oneRunningSt with taskCbFromReqId := [] }).npending = 1
    ∧ ({ oneRunningSt with taskCbFromReqId := [] }).taskCbFromReqId = [] :=
  ⟨rfl, rfl, rfl⟩

/-- C9 as amended: an observer that returns normally is harmless, and
its absence changes nothing: the model with a never-throwing probe
agrees with the plain model on both paths, and flipping the probe flag
changes no admission, rejection or release outcome (the probe-free core
of the state is identical); but an observer that throws propagates out
of the admission and completion paths, as the counterexample shows. -/
theorem throttle_c9_amended_observer :
    (∀ s : State, ∀ r : Req, waitE (fun _ => false) s r = Except.ok (wait s r))
    ∧ (∀ s : State, ∀ r : Req,
        afterRequestE (fun _ => false) s r = Except.ok (afterRequest s r))
    ∧ (∀ s : State, ∀ b : Bool, ∀ r : Req,
        (wait { s with hasProbes := b } r).core = (wait s r).core
        ∧ (afterRequest { s with hasProbes := b } r).core = (afterRequest s r).core) := by
  refine ⟨waitE_false, afterRequestE_false, ?_⟩
  intro s b r
  exact ⟨wait_core_congr { s with hasProbes := b } s r rfl,
         afterRequest_core_congr { s with hasProbes := b } s r rfl⟩

end Wyl
